import Mathlib

/-!
Verification of the `ars` asynchronous wakeup primitives.

Shallow embedding of three Rust modules:
- `src/utils/event.rs`  — single-waiter notifier/listener pair (`Inner`);
- `src/utils/notify.rs` — broadcast notifier (`Notify` / `Notified` / `WakerList`);
- `src/utils/flock.rs`  — RAII exclusive file lock (`Flock`), over an abstract
  model of the OS syscalls it calls.

Interior-mutable cells mutated through shared references become explicit
state passing: each Rust method on `&self` becomes a Lean function taking the
state and returning the result together with the new state.  `Waker`s are
opaque resumption tokens, modelled as `Nat` ids; waking is recorded as an
output list of woken ids.  The `u64` occurrence counter is a `Nat` reduced
modulo `2 ^ 64` where the code increments it.
-/

/-- `std::task::Poll<()>`: the result of polling a future. -/
inductive Poll where
  | ready
  | pending
  deriving DecidableEq, Repr

/-- The `u64` modulus: Rust's `count + 1` wraps at `2 ^ 64` (release mode). -/
def u64size : Nat := 2 ^ 64

/-! ## Single-waiter pair (`src/utils/event.rs`)

`struct Inner { state: Cell<bool>, waker: Cell<Option<Waker>> }`. -/

/-- The shared state of the notifier/listener pair. -/
structure InnerState where
  state : Bool
  waker : Option Nat
  deriving DecidableEq, Repr

/-- `Inner::new()`: `state = false`, `waker = None`. -/
def Inner.new : InnerState := ⟨false, none⟩

/-- `Inner::notify`: set `state` to `true`, then take the stored waker and
wake it.  Returns the new state and the list of woken waker ids. -/
def Inner.notify (s : InnerState) : InnerState × List Nat :=
  (⟨true, none⟩, s.waker.toList)

/-- `Inner::poll`: `state.replace(false)`; if it was `true` return `Ready`
(the waker cell is untouched), else store the current context's waker and
return `Pending`.  `w` is the waker id of the polling context. -/
def Inner.poll (s : InnerState) (w : Nat) : Poll × InnerState :=
  if s.state then (.ready, ⟨false, s.waker⟩)
  else (.pending, ⟨false, some w⟩)

/-- An operation on the shared `Inner` state: a `notify()` call, or a poll of
the (single) wait future with waker id `w`. -/
inductive EventOp where
  | notify
  | poll (w : Nat)
  deriving DecidableEq, Repr

/-- One step of the single-waiter state machine. -/
def InnerState.step (s : InnerState) : EventOp → InnerState
  | .notify => (Inner.notify s).1
  | .poll w => (Inner.poll s w).2

/-- Run a sequence of operations on the shared `Inner` state. -/
def InnerState.run (s : InnerState) (ops : List EventOp) : InnerState :=
  ops.foldl InnerState.step s

/-! ## Broadcast notifier (`src/utils/notify.rs`)

`struct Notify { count: Cell<u64>, waker: WakerList }`, where `WakerList` is
an interior-mutable growable vector of wakers. -/

/-- The state of a broadcast `Notify`. -/
structure NotifyState where
  count : Nat
  wakers : List Nat
  deriving DecidableEq, Repr

/-- `Notify::new()`: `count = 0`, empty waker list. -/
def Notify.new : NotifyState := ⟨0, []⟩

/-- `Notify::notified`: build a `Notified` future snapshotting the current
count; the notifier state is read but not written.  Returns the snapshot
(the future's `count` field) and the (unchanged) state. -/
def Notify.notified (s : NotifyState) : Nat × NotifyState :=
  (s.count, s)

/-- `Notify::notify`: increment `count` (wrapping `u64` addition), then
`WakerList::wake_all`: drain the list and wake every waker in it.  Returns
the new state and the list of woken waker ids. -/
def Notify.notify (s : NotifyState) : NotifyState × List Nat :=
  (⟨(s.count + 1) % u64size, []⟩, s.wakers)

/-- `<Notified as Future>::poll`: if the live count exceeds the future's
snapshot `snap`, return `Ready` without touching the state; otherwise
`WakerList::push` the current context's waker `w` and return `Pending`. -/
def Notified.poll (snap : Nat) (w : Nat) (s : NotifyState) : Poll × NotifyState :=
  if s.count > snap then (.ready, s)
  else (.pending, ⟨s.count, s.wakers ++ [w]⟩)

/-- An operation on a broadcast notifier's state: a `notify()` call, or a
poll of some `Notified` future with snapshot `snap` and waker id `w`.
(Future creation does not mutate the state, see `Notify.notified`.) -/
inductive NotifyOp where
  | notify
  | poll (snap : Nat) (w : Nat)
  deriving DecidableEq, Repr

/-- One step of the broadcast state machine. -/
def NotifyState.step (s : NotifyState) : NotifyOp → NotifyState
  | .notify => (Notify.notify s).1
  | .poll snap w => (Notified.poll snap w s).2

/-- Run a sequence of operations on a broadcast notifier's state. -/
def NotifyState.run (s : NotifyState) (ops : List NotifyOp) : NotifyState :=
  ops.foldl NotifyState.step s

/-- The number of `notify()` calls in a sequence of broadcast operations. -/
def numNotifies : List NotifyOp → Nat
  | [] => 0
  | .notify :: rest => numNotifies rest + 1
  | .poll _ _ :: rest => numNotifies rest

/-! ## File lock (`src/utils/flock.rs`)

`Flock::lock` calls two syscalls through the `rustix` crate:
`openat(CWD, path, O_CREAT | O_WRONLY, 0600)` and a non-blocking exclusive
`flock`.  The syscalls themselves are external to the repository, so they
are modelled abstractly: an `OsState` records which paths exist, which are
exclusively locked, and an oracle giving the errno with which `openat`
would fail for a path (if any).  Paths and fds are `Nat` ids; a successful
open of `path` yields fd `path`. -/

/-- Abstract OS state for the file-lock model. -/
structure OsState where
  files : List Nat
  locked : List Nat
  openFail : Nat → Option Nat

/-- Model of `rustix::fs::openat(CWD, path, O_CREAT | O_WRONLY, 0600)`:
either fails with the oracle's errno, or succeeds, creating the file if it
is absent, and returns an fd (identified with the path). -/
def openatCreate (os : OsState) (path : Nat) : Except Nat (Nat × OsState) :=
  match os.openFail path with
  | some e => .error e
  | none =>
      .ok (path, { os with files := if path ∈ os.files then os.files else path :: os.files })

/-- Model of `rustix::fs::flock(fd, NonBlockingLockExclusive)`: fails
immediately (never blocks) if an exclusive lock is already held, else takes
the lock. -/
def flockNonblockExclusive (os : OsState) (fd : Nat) : Except Unit OsState :=
  if fd ∈ os.locked then .error ()
  else .ok { os with locked := fd :: os.locked }

/-- `std::io::Error` as produced by `Flock::lock`: either
`io::Error::from_raw_os_error(errno)` from the open, or the
`AddrInUse`/"Lock already held" error from the failed lock attempt. -/
inductive IoError where
  | osError (code : Nat)
  | lockAlreadyHeld
  deriving DecidableEq, Repr

/-- The RAII lock handle holding the owned fd. -/
structure Flock where
  fd : Nat
  deriving DecidableEq, Repr

/-- `Flock::lock(path)`: open (creating if absent), then try the
non-blocking exclusive lock, mapping each failure to its `io::Error`.
Returns the result and the OS state after the call (side effects of a
successful open persist even when the lock attempt fails). -/
def Flock.lock (os : OsState) (path : Nat) : Except IoError Flock × OsState :=
  match openatCreate os path with
  | .error e => (.error (.osError e), os)
  | .ok (fd, os1) =>
      match flockNonblockExclusive os1 fd with
      | .error _ => (.error .lockAlreadyHeld, os1)
      | .ok os2 => (.ok ⟨fd⟩, os2)

/-! ## Basic lemmas about the state machines -/

theorem NotifyState.run_nil (s : NotifyState) : s.run [] = s := rfl

theorem NotifyState.run_cons (s : NotifyState) (op : NotifyOp) (ops : List NotifyOp) :
    s.run (op :: ops) = (s.step op).run ops := rfl

theorem numNotifies_le_length (ops : List NotifyOp) : numNotifies ops ≤ ops.length := by
  induction ops with
  | nil => simp [numNotifies]
  | cons op rest ih =>
    cases op with
    | notify => simpa [numNotifies] using Nat.succ_le_succ ih
    | poll snap w =>
      simp only [numNotifies, List.length_cons]
      exact Nat.le_succ_of_le ih

theorem numNotifies_append (a b : List NotifyOp) :
    numNotifies (a ++ b) = numNotifies a + numNotifies b := by
  induction a with
  | nil => simp [numNotifies]
  | cons op rest ih =>
    cases op with
    | notify => simp [numNotifies, ih]; omega
    | poll snap w => simp [numNotifies, ih]

/-- A poll step never changes the count. -/
theorem step_poll_count (s : NotifyState) (snap w : Nat) :
    (s.step (.poll snap w)).count = s.count := by
  simp only [NotifyState.step, Notified.poll]
  by_cases h : s.count > snap <;> simp [h]

/-- Running a sequence with no `notify()` in it leaves the count unchanged. -/
theorem run_count_no_notify (ops : List NotifyOp) :
    ∀ s : NotifyState, numNotifies ops = 0 → (s.run ops).count = s.count := by
  induction ops with
  | nil => intro s _; rfl
  | cons op rest ih =>
    intro s h
    cases op with
    | notify => simp [numNotifies] at h
    | poll snap w =>
      simp only [numNotifies] at h
      rw [NotifyState.run_cons, ih _ h, step_poll_count]

/-- As long as the count cannot wrap, running a sequence adds exactly the
number of `notify()` calls to the count. -/
theorem run_count_no_wrap (ops : List NotifyOp) :
    ∀ s : NotifyState, s.count + numNotifies ops < u64size →
      (s.run ops).count = s.count + numNotifies ops := by
  induction ops with
  | nil => intro s _; rfl
  | cons op rest ih =>
    intro s h
    cases op with
    | notify =>
      simp only [numNotifies] at h ⊢
      rw [NotifyState.run_cons]
      have hstep : (s.step NotifyOp.notify).count = s.count + 1 := by
        simp only [NotifyState.step, Notify.notify]
        exact Nat.mod_eq_of_lt (by omega)
      rw [ih _ (by rw [hstep]; omega), hstep]
      omega
    | poll snap w =>
      simp only [numNotifies] at h ⊢
      rw [NotifyState.run_cons, ih _ (by rw [step_poll_count]; exact h), step_poll_count]

/-- `numNotifies` is monotone over prefixes of an operation sequence. -/
theorem numNotifies_take_mono (ops : List NotifyOp) {i j : Nat} (hij : i ≤ j) :
    numNotifies (ops.take i) ≤ numNotifies (ops.take j) := by
  have hsplit : ops.take i ++ (ops.take j).drop i = ops.take j := by
    have h1 : (ops.take j).take i = ops.take i := by
      rw [List.take_take, Nat.min_eq_left hij]
    calc ops.take i ++ (ops.take j).drop i
        = (ops.take j).take i ++ (ops.take j).drop i := by rw [h1]
      _ = ops.take j := List.take_append_drop i (ops.take j)
  calc numNotifies (ops.take i)
      ≤ numNotifies (ops.take i) + numNotifies ((ops.take j).drop i) := Nat.le_add_right _ _
    _ = numNotifies (ops.take i ++ (ops.take j).drop i) := (numNotifies_append _ _).symm
    _ = numNotifies (ops.take j) := by rw [hsplit]

/-- After one or more `notify()` calls (and nothing else), the single-waiter
state is exactly `⟨true, none⟩`. -/
theorem run_notifies_state (n : Nat) :
    ∀ s : InnerState, InnerState.run s (List.replicate (n + 1) EventOp.notify) = ⟨true, none⟩ := by
  induction n with
  | zero => intro s; rfl
  | succ m ih =>
    intro s
    have hrep : List.replicate (m + 2) EventOp.notify
        = EventOp.notify :: List.replicate (m + 1) EventOp.notify := rfl
    rw [hrep]
    exact ih (s.step .notify)

/-- A poll of a broadcast future whose snapshot is the count of state `s`
returns `Pending` as long as no `notify()` has happened since `s`. -/
theorem poll_no_notify_pending (s : NotifyState) (ops : List NotifyOp) (w : Nat)
    (h : numNotifies ops = 0) :
    (Notified.poll s.count w (NotifyState.run s ops)).1 = Poll.pending := by
  have hc := run_count_no_notify ops s h
  simp [Notified.poll, hc]

/-- A poll of a broadcast future whose snapshot is the count of state `s`
returns `Ready` once at least one `notify()` has happened since `s`
(and the counter has not wrapped). -/
theorem poll_after_notifies_ready (s : NotifyState) (ops : List NotifyOp) (w : Nat)
    (h1 : 1 ≤ numNotifies ops) (h2 : s.count + numNotifies ops < u64size) :
    (Notified.poll s.count w (NotifyState.run s ops)).1 = Poll.ready := by
  have hc := run_count_no_wrap ops s h2
  simp only [Notified.poll]
  rw [hc, if_pos (by omega)]

/-- A run consisting only of `notify` steps keeps the single-waiter state
at exactly `⟨true, none⟩` once it is there. -/
theorem run_all_notify_notified (tail : List EventOp)
    (h : ∀ op ∈ tail, op = EventOp.notify) :
    InnerState.run ⟨true, none⟩ tail = ⟨true, none⟩ := by
  induction tail with
  | nil => rfl
  | cons op rest ih =>
    have hop : op = EventOp.notify := h op (List.mem_cons_self op rest)
    subst hop
    exact ih (fun o ho => h o (List.mem_cons_of_mem _ ho))

/-! ## Claim theorems -/

/-- Claim C1 counterexample: two traces where a `notify()` precedes a wait
future's first poll yet that poll returns `Pending`.  Broadcast: in
`notify(); let fut = notified(); poll(fut)` the notification predates the
future's creation-time snapshot.  Single-waiter: in
`notify(); poll(Ready); new wait; poll` the intervening poll consumed the
pending flag, so the second future's first poll pends. -/
theorem c1_counterexample :
    numNotifies [NotifyOp.notify] = 1 ∧
    (Notified.poll (Notify.notified (NotifyState.run Notify.new [NotifyOp.notify])).1 0
      (NotifyState.run Notify.new [NotifyOp.notify])).1 = Poll.pending ∧
    (Inner.poll (InnerState.run Inner.new [EventOp.notify, EventOp.poll 1]) 2).1
      = Poll.pending :=
  ⟨rfl, rfl, rfl⟩

/-- Claim C1 (amended): a `notify()` strictly before a wait future's first
poll makes that poll return `Ready` provided the notification is still
live at that poll — for the single-waiter pair, at least one `notify()`
occurs after the last poll preceding the future's first poll (the
operations from any state are an arbitrary prefix, then a `notify()`,
then only further `notify()` calls); for the broadcast notifier, at least
one `notify()` occurs at or after the future's creation (and the `u64`
counter does not wrap). -/
theorem c1_resolve_before_first_poll :
    (∀ (s : InnerState) (pre tail : List EventOp) (w : Nat),
      (∀ op ∈ tail, op = EventOp.notify) →
      (Inner.poll (InnerState.run s (pre ++ EventOp.notify :: tail)) w).1 = Poll.ready) ∧
    (∀ (s : NotifyState) (ops : List NotifyOp) (w : Nat),
      1 ≤ numNotifies ops → s.count + numNotifies ops < u64size →
      (Notified.poll (Notify.notified s).1 w (NotifyState.run s ops)).1 = Poll.ready) := by
  constructor
  · intro s pre tail w h
    have hsplit : InnerState.run s (pre ++ EventOp.notify :: tail)
        = InnerState.run ⟨true, none⟩ tail := by
      show List.foldl InnerState.step s (pre ++ EventOp.notify :: tail) = _
      rw [List.foldl_append]
      rfl
    rw [hsplit, run_all_notify_notified tail h]
    rfl
  · intro s ops w h1 h2
    exact poll_after_notifies_ready s ops w h1 h2

/-- Claim C1 witness: both conjuncts at concrete inputs; the single-waiter
trace has an earlier consuming poll, then a notify, then another notify. -/
theorem c1_witness :
    (Inner.poll (InnerState.run Inner.new
      ([EventOp.poll 0] ++ EventOp.notify :: [EventOp.notify])) 4).1 = Poll.ready ∧
    (Notified.poll (Notify.notified Notify.new).1 5
      (NotifyState.run Notify.new [NotifyOp.notify])).1 = Poll.ready :=
  ⟨c1_resolve_before_first_poll.1 Inner.new [EventOp.poll 0] [EventOp.notify] 4 (by decide),
   c1_resolve_before_first_poll.2 Notify.new [NotifyOp.notify] 5 (by decide) (by decide)⟩

/-- Claim C2: polling a broadcast `Notified` with snapshot `snap` returns
`Ready` iff the live count strictly exceeds `snap`; otherwise it appends
the current waker to the list and returns `Pending`.  The decision depends
only on the state at the moment of the poll. -/
theorem c2_broadcast_poll (snap w : Nat) (s : NotifyState) :
    ((Notified.poll snap w s).1 = Poll.ready ↔ snap < s.count) ∧
    (s.count ≤ snap →
      Notified.poll snap w s = (Poll.pending, ⟨s.count, s.wakers ++ [w]⟩)) := by
  constructor
  · constructor
    · intro hr
      by_contra hn
      have hng : ¬ (s.count > snap) := by omega
      simp [Notified.poll, hng] at hr
    · intro hlt
      simp [Notified.poll, hlt]
  · intro hle
    have hng : ¬ (s.count > snap) := by omega
    simp [Notified.poll, hng]

/-- Claim C2 witness: a pending poll at a concrete input. -/
theorem c2_witness :
    Notified.poll 5 7 ⟨3, [0]⟩ = (Poll.pending, ⟨3, [0, 7]⟩) :=
  (c2_broadcast_poll 5 7 ⟨3, [0]⟩).2 (by decide)

/-- Claim C3: `Notify::notify` increments the count by exactly 1 (absent
`u64` wraparound), empties the waker list, and wakes each stored waker
exactly once (the multiset of woken ids equals the stored list). -/
theorem c3_notify_increments_and_drains (s : NotifyState)
    (h : s.count + 1 < u64size) :
    Notify.notify s = (⟨s.count + 1, []⟩, s.wakers) ∧
    ∀ w : Nat, ((Notify.notify s).2).count w = s.wakers.count w := by
  constructor
  · simp only [Notify.notify]
    rw [Nat.mod_eq_of_lt h]
  · intro w
    rfl

/-- Claim C3 witness at a concrete state with a duplicate waker. -/
theorem c3_witness :
    Notify.notify ⟨2, [5, 5, 9]⟩ = (⟨3, []⟩, [5, 5, 9]) ∧
    ((Notify.notify ⟨2, [5, 5, 9]⟩).2).count 5 = ([5, 5, 9] : List Nat).count 5 :=
  ⟨(c3_notify_increments_and_drains ⟨2, [5, 5, 9]⟩ (by decide)).1,
   (c3_notify_increments_and_drains ⟨2, [5, 5, 9]⟩ (by decide)).2 5⟩

/-- Claim C4: every poll of the single-waiter future read-and-clears the
pending flag: if it was `true`, the poll clears it and returns `Ready`;
if it was `false`, the poll stores the current waker (overwriting any
previous one) and returns `Pending`. -/
theorem c4_event_poll_read_and_clear (s : InnerState) (w : Nat) :
    (s.state = true → Inner.poll s w = (Poll.ready, ⟨false, s.waker⟩)) ∧
    (s.state = false → Inner.poll s w = (Poll.pending, ⟨false, some w⟩)) := by
  constructor
  · intro h
    simp [Inner.poll, h]
  · intro h
    simp [Inner.poll, h]

/-- Claim C4 witness: both branches at concrete states. -/
theorem c4_witness :
    Inner.poll ⟨true, some 3⟩ 9 = (Poll.ready, ⟨false, some 3⟩) ∧
    Inner.poll ⟨false, some 3⟩ 9 = (Poll.pending, ⟨false, some 9⟩) :=
  ⟨(c4_event_poll_read_and_clear ⟨true, some 3⟩ 9).1 rfl,
   (c4_event_poll_read_and_clear ⟨false, some 3⟩ 9).2 rfl⟩

/-- Claim C5: epoch correctness — a broadcast future snapshotting state `s`
polls `Pending` after any `notify`-free sequence of operations, and polls
`Ready` once at least one further `notify()` has occurred (no wraparound).
The concrete scenario of the claim (create, `notify()`, create future,
polls stay `Pending` until another `notify()`) instantiates both parts. -/
theorem c5_epoch_correctness (s : NotifyState) (ops : List NotifyOp) (w : Nat) :
    (numNotifies ops = 0 →
      (Notified.poll (Notify.notified s).1 w (NotifyState.run s ops)).1 = Poll.pending) ∧
    (1 ≤ numNotifies ops → s.count + numNotifies ops < u64size →
      (Notified.poll (Notify.notified s).1 w (NotifyState.run s ops)).1 = Poll.ready) := by
  constructor
  · intro h
    exact poll_no_notify_pending s ops w h
  · intro h1 h2
    exact poll_after_notifies_ready s ops w h1 h2

/-- Claim C5 witness: the future created after one `notify()` (state
`⟨1, []⟩`) pends while no further `notify()` occurs, even across other
polls, and resolves after a further `notify()`. -/
theorem c5_witness :
    (Notified.poll (Notify.notified ⟨1, []⟩).1 0
      (NotifyState.run ⟨1, []⟩ [NotifyOp.poll 1 0])).1 = Poll.pending ∧
    (Notified.poll (Notify.notified ⟨1, []⟩).1 2
      (NotifyState.run ⟨1, []⟩ [NotifyOp.poll 1 0, NotifyOp.notify])).1 = Poll.ready :=
  ⟨(c5_epoch_correctness ⟨1, []⟩ [NotifyOp.poll 1 0] 0).1 (by decide),
   (c5_epoch_correctness ⟨1, []⟩ [NotifyOp.poll 1 0, NotifyOp.notify] 2).2
     (by decide) (by decide)⟩

/-- Claim C6: idempotent pending flag — after `N ≥ 1` `notify()` calls and
nothing else, the first poll returns `Ready`, and the pair is back in the
unnotified state: a subsequent wait future polled with no further
`notify()` returns `Pending`. -/
theorem c6_idempotent_pending (n w w2 : Nat) (s : InnerState) (h : 1 ≤ n) :
    (Inner.poll (InnerState.run s (List.replicate n EventOp.notify)) w).1 = Poll.ready ∧
    Inner.poll (Inner.poll (InnerState.run s (List.replicate n EventOp.notify)) w).2 w2
      = (Poll.pending, ⟨false, some w2⟩) := by
  obtain ⟨m, rfl⟩ : ∃ m, n = m + 1 := ⟨n - 1, by omega⟩
  rw [run_notifies_state m s]
  exact ⟨rfl, rfl⟩

/-- Claim C6 witness: three `notify()` calls, then the two polls. -/
theorem c6_witness :
    (Inner.poll (InnerState.run Inner.new (List.replicate 3 EventOp.notify)) 1).1
      = Poll.ready ∧
    Inner.poll (Inner.poll (InnerState.run Inner.new (List.replicate 3 EventOp.notify)) 1).2 2
      = (Poll.pending, ⟨false, some 2⟩) :=
  c6_idempotent_pending 3 1 2 Inner.new (by decide)

/-- Claim C7: the broadcast occurrence counter is incremented by exactly 1
by `notify()` (absent wraparound), unchanged by polls and by wait-future
creation, and non-decreasing along every run from a fresh notifier whose
length stays below `2 ^ 64`. -/
theorem c7_count_monotone :
    (∀ s : NotifyState, s.count + 1 < u64size → ((Notify.notify s).1).count = s.count + 1) ∧
    (∀ (s : NotifyState) (snap w : Nat), ((Notified.poll snap w s).2).count = s.count) ∧
    (∀ s : NotifyState, (Notify.notified s).2 = s) ∧
    (∀ (ops : List NotifyOp) (i j : Nat), i ≤ j → ops.length < u64size →
      (NotifyState.run Notify.new (ops.take i)).count ≤
        (NotifyState.run Notify.new (ops.take j)).count) := by
  refine ⟨?_, ?_, ?_, ?_⟩
  · intro s h
    simp only [Notify.notify]
    exact Nat.mod_eq_of_lt h
  · intro s snap w
    exact step_poll_count s snap w
  · intro s
    rfl
  · intro ops i j hij hlen
    have hzero : Notify.new.count = 0 := rfl
    have hb : ∀ k : Nat, Notify.new.count + numNotifies (ops.take k) < u64size := by
      intro k
      have h1 := numNotifies_le_length (ops.take k)
      have h2 : (ops.take k).length ≤ ops.length := by
        rw [List.length_take]
        omega
      omega
    rw [run_count_no_wrap _ _ (hb i), run_count_no_wrap _ _ (hb j)]
    have hmono := numNotifies_take_mono ops hij
    omega

/-- Claim C7 witness: all four components at concrete inputs. -/
theorem c7_witness :
    ((Notify.notify ⟨5, [1]⟩).1).count = 5 + 1 ∧
    ((Notified.poll 2 3 ⟨5, [1]⟩).2).count = 5 ∧
    (Notify.notified ⟨5, [1]⟩).2 = ⟨5, [1]⟩ ∧
    (NotifyState.run Notify.new ([NotifyOp.notify, NotifyOp.notify].take 1)).count ≤
      (NotifyState.run Notify.new ([NotifyOp.notify, NotifyOp.notify].take 2)).count :=
  ⟨c7_count_monotone.1 ⟨5, [1]⟩ (by decide),
   c7_count_monotone.2.1 ⟨5, [1]⟩ 2 3,
   c7_count_monotone.2.2.1 ⟨5, [1]⟩,
   c7_count_monotone.2.2.2 [NotifyOp.notify, NotifyOp.notify] 1 2 (by decide) (by decide)⟩

/-- Claim C8: once a poll of a broadcast future has returned `Ready`, every
subsequent poll of the same future (same snapshot) also returns `Ready`,
across any further operations, as long as the counter does not wrap. -/
theorem c8_ready_stable (snap w w2 : Nat) (s : NotifyState) (ops : List NotifyOp)
    (h1 : (Notified.poll snap w s).1 = Poll.ready)
    (h2 : s.count + numNotifies ops < u64size) :
    (Notified.poll snap w2 (NotifyState.run s ops)).1 = Poll.ready := by
  have hlt : snap < s.count := by
    by_contra hn
    have hng : ¬ (s.count > snap) := by omega
    simp [Notified.poll, hng] at h1
  have hc := run_count_no_wrap ops s h2
  simp only [Notified.poll]
  rw [hc, if_pos (by omega)]

/-- Claim C8 witness: ready at state `⟨1, []⟩`, still ready after a
`notify()` and an unrelated poll. -/
theorem c8_witness :
    (Notified.poll 0 1 ⟨1, []⟩).1 = Poll.ready ∧
    (Notified.poll 0 2 (NotifyState.run ⟨1, []⟩ [NotifyOp.notify, NotifyOp.poll 5 7])).1
      = Poll.ready :=
  ⟨by decide,
   c8_ready_stable 0 1 2 ⟨1, []⟩ [NotifyOp.notify, NotifyOp.poll 5 7] (by decide) (by decide)⟩

/-- Claim C9: `Notify::notified` has no side effect — it returns the
current count as the future's snapshot and leaves the notifier state
(count and waker list) unchanged, for any state and any number of calls. -/
theorem c9_notified_no_side_effect (s : NotifyState) :
    (Notify.notified s).1 = s.count ∧ (Notify.notified s).2 = s ∧
    ∀ n : Nat, (fun t => (Notify.notified t).2)^[n] s = s := by
  refine ⟨rfl, rfl, ?_⟩
  intro n
  induction n with
  | zero => rfl
  | succ m ih =>
    rw [Function.iterate_succ_apply]
    exact ih

/-- Claim C10: `Flock::lock` creates the file if absent and never blocks:
if the open fails it surfaces the raw OS error; if the file opens but the
non-blocking exclusive lock is already held it fails with the
"lock already held" error (the file having been created regardless);
otherwise it returns the lock handle with the file created and locked. -/
theorem c10_flock_lock (os : OsState) (path : Nat) :
    (∀ e : Nat, os.openFail path = some e →
      Flock.lock os path = (.error (.osError e), os)) ∧
    (os.openFail path = none → path ∈ os.locked →
      (Flock.lock os path).1 = .error .lockAlreadyHeld ∧
      path ∈ (Flock.lock os path).2.files) ∧
    (os.openFail path = none → path ∉ os.locked →
      (Flock.lock os path).1 = .ok ⟨path⟩ ∧
      path ∈ (Flock.lock os path).2.files ∧
      path ∈ (Flock.lock os path).2.locked) := by
  refine ⟨?_, ?_, ?_⟩
  · intro e he
    simp [Flock.lock, openatCreate, he]
  · intro hn hl
    by_cases hf : path ∈ os.files <;>
      simp [Flock.lock, openatCreate, flockNonblockExclusive, hn, hl, hf]
  · intro hn hl
    by_cases hf : path ∈ os.files <;>
      simp [Flock.lock, openatCreate, flockNonblockExclusive, hn, hl, hf]

/-- Claim C10 witness: locking a fresh path on an empty filesystem
succeeds, creating and locking the file. -/
theorem c10_witness :
    (Flock.lock ⟨[], [], fun _ => none⟩ 7).1 = Except.ok ⟨7⟩ ∧
    (7 : Nat) ∈ (Flock.lock ⟨[], [], fun _ => none⟩ 7).2.files ∧
    (7 : Nat) ∈ (Flock.lock ⟨[], [], fun _ => none⟩ 7).2.locked :=
  (c10_flock_lock ⟨[], [], fun _ => none⟩ 7).2.2 rfl (by simp)
